import Mathlib

/-!
Shallow embedding of the creator-score-miniapp repository (three source
files: `src/hooks/useScoreRefresh.ts`, `src/hooks/useBadges.ts`,
`src/app/api/share-image/[talentUUID]/route.tsx`).

Modelling conventions:
* JavaScript numbers are modelled as exact rationals (`ℚ`); all numeric
  literals appearing in the claims are exactly representable.
* Fallible upstream calls (fetches, JSON parsing, thrown exceptions)
  are modelled as `Except String` values supplied through an
  environment, so the handlers stay pure and total.
* JavaScript truthiness of an optional string (`undefined`/`null`/`""`
  are falsy) is modelled by `truthyStr`.
-/

/-! ## Earnings value parser
Embeds `route.tsx` lines 126–139: strip with `replace(/[^0-9.KM-]+/g, "")`,
then `includes("K")` / `includes("M")` with first-occurrence removal and
`parseFloat`. `none` stands for JavaScript `NaN`. -/

/-- Characters kept by the strip regex `[^0-9.KM-]`. -/
def keepChar (c : Char) : Bool :=
  c.isDigit || c = '.' || c = 'K' || c = 'M' || c = '-'

/-- Decimal value of a digit list (most significant first). -/
def digitsToNat (ds : List Char) : Nat :=
  ds.foldl (fun a c => 10 * a + (c.toNat - 48)) 0

/-- JavaScript `parseFloat` restricted to the post-strip alphabet
(digits, `.`, `-`, `K`, `M`; no whitespace or exponent can occur):
an optional sign, then digits, then optionally a dot and more digits,
stopping at the first other character; `none` when no digit was read
(JavaScript `NaN`). -/
def parseFloatCore (cs : List Char) : Option ℚ :=
  let signed : Bool × List Char :=
    match cs with
    | '-' :: rest => (true, rest)
    | '+' :: rest => (false, rest)
    | _ => (false, cs)
  let ip := signed.2.takeWhile Char.isDigit
  let rest := signed.2.dropWhile Char.isDigit
  let fp : List Char :=
    match rest with
    | '.' :: tail => tail.takeWhile Char.isDigit
    | _ => []
  if ip.isEmpty && fp.isEmpty then none
  else
    let q : ℚ := (digitsToNat ip : ℚ) + (digitsToNat fp : ℚ) / ((10 : ℚ) ^ fp.length)
    some (if signed.1 then -q else q)

/-- JavaScript `String.prototype.replace` with a plain-string pattern
removes only the first occurrence. -/
def removeFirst (c : Char) : List Char → List Char
  | [] => []
  | x :: xs => if x = c then xs else x :: removeFirst c xs

/-- The parser of `route.tsx` lines 126–139: strip, then the `K` branch
(checked first, anywhere in the string, first occurrence removed, ×1000),
then the `M` branch (×1000000), else plain `parseFloat`. -/
def parseReadableValue (s : String) : Option ℚ :=
  if (s.data.filter keepChar).contains 'K' then
    (parseFloatCore (removeFirst 'K' (s.data.filter keepChar))).map (· * 1000)
  else if (s.data.filter keepChar).contains 'M' then
    (parseFloatCore (removeFirst 'M' (s.data.filter keepChar))).map (· * 1000000)
  else
    parseFloatCore (s.data.filter keepChar)

/-- Follows the claim's words, for refinement comparison with
`parseReadableValue`: a trailing `K` suffix multiplies the numeric
prefix of the remainder by 1000, a trailing `M` suffix by 1000000. -/
def parseReadableValueSpec (s : String) : Option ℚ :=
  match (s.data.filter keepChar).getLast? with
  | some 'K' => (parseFloatCore (s.data.filter keepChar).dropLast).map (· * 1000)
  | some 'M' => (parseFloatCore (s.data.filter keepChar).dropLast).map (· * 1000000)
  | _ => parseFloatCore (s.data.filter keepChar)

/-! ## Refresh Controller (`src/hooks/useScoreRefresh.ts`) -/

/-- JavaScript truthiness of an optional string: `undefined`, `null`
and `""` are falsy. -/
def truthyStr : Option String → Bool
  | none => false
  | some s => s ≠ ""

/-- Observable state of the `useScoreRefresh` hook, extended with
counters for the externally visible side effects (analytics events,
enqueue-recalculation requests, scheduled refetch callbacks). -/
structure RefreshState where
  isRefreshing : Bool
  successMessage : Option String
  errorMsg : Option String
  hasCalledSuccess : Bool
  analyticsEvents : Nat
  requestsIssued : Nat
  scheduledRefetches : Nat
deriving DecidableEq, Repr

/-- Outcome of `triggerScoreCalculation`: `ok` is `{success: true}`,
`fail e` is `{success: false, error: e}`, `thrown m` is a rejected
promise carrying an `Error` with message `m` (`none` for a non-`Error`
throw). -/
inductive TriggerOutcome
  | ok
  | fail (err : Option String)
  | thrown (msg : Option String)
deriving DecidableEq, Repr

/-- The `result.error || "Failed to trigger calculation"` fallback
(`||` treats `""` as falsy too). -/
def fallbackMsg : Option String → String
  | some e => if e = "" then "Failed to trigger calculation" else e
  | none => "Failed to trigger calculation"

/-- One invocation of `refreshScore` (lines 38–91), as a pure state
transition given the trigger outcome. `hasAnalytics` models the
presence of the `analyticsData` argument, `hasOnSuccess` the presence
of the `onSuccess` callback. -/
def refreshScore (talentUUID : String) (hasAnalytics hasOnSuccess : Bool)
    (s : RefreshState) (outcome : TriggerOutcome) : RefreshState :=
  if talentUUID = "" || s.isRefreshing then s
  else
    let s1 := { s with
      analyticsEvents := if hasAnalytics then s.analyticsEvents + 1 else s.analyticsEvents }
    let s2 := { s1 with
      isRefreshing := true
      errorMsg := none
      successMessage := none
      hasCalledSuccess := false
      requestsIssued := s1.requestsIssued + 1 }
    match outcome with
    | .ok =>
      if hasOnSuccess then
        { s2 with
          successMessage := some "Calculation enqueued"
          hasCalledSuccess := true
          scheduledRefetches := s2.scheduledRefetches + 1 }
      else
        { s2 with successMessage := some "Calculation enqueued" }
    | .fail e =>
      { s2 with errorMsg := some (fallbackMsg e), isRefreshing := false }
    | .thrown m =>
      { s2 with errorMsg := some (fallbackMsg m), isRefreshing := false }

/-- The manual `clearError` action (lines 34–36). -/
def clearErrorState (s : RefreshState) : RefreshState :=
  { s with errorMsg := none }

/-- An idle controller state with no pending messages. -/
def idleRS : RefreshState :=
  { isRefreshing := false, successMessage := none, errorMsg := none
    hasCalledSuccess := false, analyticsEvents := 0, requestsIssued := 0
    scheduledRefetches := 0 }

/-! ## Score Client (`src/hooks/useBadges.ts`)
`LEVEL_RANGES` comes from `@/lib/constants`, which is not part of the
given sources; the level table is therefore a parameter everywhere.
The upstream `/api/talent-score` fetch is modelled as an environment
`String → Except String ScoreApiResponse`: `.error m` is a rejected
promise (network or JSON-parse failure) whose caught message is `m`,
`.ok` a parsed JSON body. -/

/-- One entry of the `LEVEL_RANGES` table. -/
structure LevelRange where
  min : ℚ
  max : ℚ
  name : String
deriving DecidableEq, Repr

/-- The predicate of line 88: `points >= range.min && points <= range.max`. -/
def inLevelRange (points : ℚ) (range : LevelRange) : Bool :=
  decide (range.min ≤ points) && decide (points ≤ range.max)

/-- Index assigned by `LEVEL_RANGES.indexOf(levelInfo)`: since
`Array.prototype.find` returns the matched element itself and
`indexOf` compares by reference, this is the index of the first
matching range, and 0 (the index of `LEVEL_RANGES[0]`) when none
matches. -/
def levelIndexOf (table : List LevelRange) (points : ℚ) : Nat :=
  match table.findIdx? (inLevelRange points) with
  | some i => i
  | none => 0

/-- The 1-based level of line 90: `indexOf(levelInfo) + 1`. -/
def levelOf (table : List LevelRange) (points : ℚ) : Nat :=
  levelIndexOf table points + 1

/-- The range of lines 86–89: first match of the scan, falling back to
`LEVEL_RANGES[0]` (the `headD` default is never used for the nonempty
tables the claims quantify over). -/
def levelInfoOf (table : List LevelRange) (points : ℚ) : LevelRange :=
  (table.find? (inLevelRange points)).getD (table.headD ⟨0, 0, "Level 1"⟩)

/-- The nested `score` object of the upstream JSON; every field may be
absent. -/
structure ScoreObj where
  points : Option ℚ
  last_calculated_at : Option String
  calculating_score : Option Bool
  calculating_score_enqueued_at : Option String
deriving DecidableEq, Repr

/-- A parsed `/api/talent-score` response body. -/
structure ScoreApiResponse where
  error : Option String
  score : Option ScoreObj
deriving DecidableEq, Repr

/-- The record built by `getScoreForAddress` (the `BuilderScore` /
`CreatorScore` shape). Fields omitted in the source objects are
modelled as `none` / `false`. -/
structure ScoreRecord where
  score : ℚ
  level : Nat
  levelName : String
  lastCalculatedAt : Option String
  walletAddress : Option String
  calculating : Bool
  calculatingEnqueuedAt : Option String
  error : Option String
deriving DecidableEq, Repr

/-- The error-shaped record returned on every failure path of
`useBadges.ts` (score 0, level 1, `"Level 1"`, null fields). -/
def mkErrorRecord (msg : String) : ScoreRecord :=
  { score := 0, level := 1, levelName := "Level 1", lastCalculatedAt := none
    walletAddress := none, calculating := false, calculatingEnqueuedAt := none
    error := some msg }

/-- `getScoreForAddress` (lines 43–111): a rejected fetch or JSON
parse is caught and becomes an error record; a body with a truthy
`error` field becomes an error record; otherwise the score object is
unpacked with `?? ` defaults and the level derived from the table. -/
def getScoreForAddress (table : List LevelRange)
    (env : String → Except String ScoreApiResponse) (address : String) : ScoreRecord :=
  match env address with
  | .error msg => mkErrorRecord msg
  | .ok data =>
    if truthyStr data.error then
      mkErrorRecord (data.error.getD "")
    else
      let points := (data.score.bind ScoreObj.points).getD 0
      { score := points
        level := levelOf table points
        levelName := (levelInfoOf table points).name
        lastCalculatedAt := data.score.bind ScoreObj.last_calculated_at
        walletAddress := some address
        calculating := (data.score.bind ScoreObj.calculating_score).getD false
        calculatingEnqueuedAt := data.score.bind ScoreObj.calculating_score_enqueued_at
        error := none }

/-- The reducer of lines 150–152:
`current.score > highest.score ? current : highest`. -/
def pickHigher (highest current : ScoreRecord) : ScoreRecord :=
  if highest.score < current.score then current else highest

/-- `getHighestScore` (lines 116–163): empty input short-circuits; all
addresses are lowercased and fetched; records with a truthy `error`
are filtered out; an empty remainder yields an error record; otherwise
`Array.prototype.reduce` without an initial value folds `pickHigher`
over the tail starting from the head. (`getScoreForAddress` never
throws, so the surrounding `try` is inert.) -/
def getHighestScore (table : List LevelRange)
    (env : String → Except String ScoreApiResponse) (addresses : List String) : ScoreRecord :=
  if addresses.isEmpty then
    mkErrorRecord "No wallet addresses provided"
  else
    let scores := addresses.map (fun addr => getScoreForAddress table env addr.toLower)
    let validScores := scores.filter (fun s => !truthyStr s.error)
    match validScores with
    | [] => mkErrorRecord "No valid scores found"
    | h :: t => t.foldl pickHigher h

/-- Environments in which failure messages are meaningful: a rejected
fetch carries a nonempty message and an application-level `error`
field, when present, is nonempty. Under this assumption a record's
`error` field is truthy exactly when it is non-null. -/
def WellFormedEnv (env : String → Except String ScoreApiResponse) : Prop :=
  ∀ a, (∀ m, env a = .error m → m ≠ "") ∧
    (∀ d e, env a = .ok d → d.error = some e → e ≠ "")

/-! ## Credential Aggregator (`route.tsx` lines 101–161)
`isEarningsCredential` lives in `@/lib/total-earnings-config`, outside
the given sources, so the earnings-slug predicate is a parameter. -/

/-- A credential point; each field may be absent in the upstream JSON. -/
structure CredentialPoint where
  slug : Option String
  readable_value : Option String
  uom : Option String
deriving DecidableEq, Repr

/-- A credential group: an issuer with its points. -/
structure CredentialGroup where
  issuer : String
  points : List CredentialPoint
deriving DecidableEq, Repr

/-- Modelled from the spec: `convertEthToUsdc` (from `@/lib/utils`, not
among the given sources) converts an ETH amount using the supplied
USD/ETH rate — "Convert ETH-denominated values using the supplied
rate"; "ETH-denominated `1` at rate 3000 → 3000 USD-equivalent". -/
def convertEthToUsdc (value ethPrice : ℚ) : ℚ :=
  value * ethPrice

/-- USD contribution of a single point (lines 116–151): zero unless
the slug (defaulted to `""`) satisfies the earnings predicate, both
`readable_value` and `uom` are truthy, the parsed value is a number,
and the unit is `"ETH"` (converted) or `"USDC"` (passed through). -/
def pointUsd (isEarn : String → Bool) (ethPrice : ℚ) (p : CredentialPoint) : ℚ :=
  if !isEarn (p.slug.getD "") then 0
  else if !truthyStr p.readable_value || !truthyStr p.uom then 0
  else
    match parseReadableValue (p.readable_value.getD "") with
    | none => 0
    | some v =>
      if p.uom = some "ETH" then convertEthToUsdc v ethPrice
      else if p.uom = some "USDC" then v
      else 0

/-- JavaScript `Map.prototype.set` on an insertion-ordered association
list: an existing key keeps its position and gets the new value, a new
key is appended. -/
def setAssoc (k : String) (v : ℚ) : List (String × ℚ) → List (String × ℚ)
  | [] => [(k, v)]
  | (k2, v2) :: rest =>
    if k2 = k then (k2, v) :: rest else (k2, v2) :: setAssoc k v rest

/-- Sum of the per-point USD contributions of one group (the
`issuerTotal` accumulation of lines 113–151). -/
def groupTotal (isEarn : String → Bool) (ethPrice : ℚ) (g : CredentialGroup) : ℚ :=
  (g.points.map (pointUsd isEarn ethPrice)).sum

/-- Processing of one credential group (lines 103–156): skipped when no
point's slug is earnings-tagged; otherwise its total is written into
the map — overwriting any earlier entry for the same issuer — but only
when strictly positive. -/
def processGroup (isEarn : String → Bool) (ethPrice : ℚ)
    (m : List (String × ℚ)) (g : CredentialGroup) : List (String × ℚ) :=
  if !g.points.any (fun p => isEarn (p.slug.getD "")) then m
  else if 0 < groupTotal isEarn ethPrice g then
    setAssoc g.issuer (groupTotal isEarn ethPrice g) m
  else m

/-- The `issuerTotals` map after the `credentials.forEach` loop. -/
def issuerTotalsOf (isEarn : String → Bool) (ethPrice : ℚ)
    (groups : List CredentialGroup) : List (String × ℚ) :=
  groups.foldl (processGroup isEarn ethPrice) []

/-- `totalEarnings` (lines 158–161): the sum of the map's values. -/
def totalEarningsOf (isEarn : String → Bool) (ethPrice : ℚ)
    (groups : List CredentialGroup) : ℚ :=
  ((issuerTotalsOf isEarn ethPrice groups).map Prod.snd).sum

/-- Follows the claim's words, for refinement comparison: the summed
contribution of one issuer across **all** groups carrying it. -/
def issuerContributionSpec (isEarn : String → Bool) (ethPrice : ℚ)
    (groups : List CredentialGroup) (issuer : String) : ℚ :=
  ((groups.filter (fun g => g.issuer = issuer)).map (groupTotal isEarn ethPrice)).sum

/-- Follows the claim's words, for refinement comparison: total
earnings as the sum, over the distinct issuers whose summed
contribution is positive, of that summed contribution. -/
def totalEarningsPerIssuerSpec (isEarn : String → Bool) (ethPrice : ℚ)
    (groups : List CredentialGroup) : ℚ :=
  (((groups.map CredentialGroup.issuer).dedup.filter
      (fun i => decide (0 < issuerContributionSpec isEarn ethPrice groups i))).map
    (issuerContributionSpec isEarn ethPrice groups)).sum

/-! ## Share Image Composer (`route.tsx` GET handler) -/

/-- A social account, reduced to what `calculateTotalFollowers` reads. -/
structure SocialAccount where
  followers : Option ℚ
deriving DecidableEq, Repr

/-- Modelled from the spec: `calculateTotalFollowers` (from
`@/lib/utils`, not among the given sources) — "Compute total followers
from social accounts": the sum of the accounts' follower counts,
missing counts contributing zero. -/
def calculateTotalFollowers (accounts : List SocialAccount) : ℚ :=
  (accounts.map (fun a => a.followers.getD 0)).sum

/-- The profile JSON fields the handler reads. -/
structure ProfileData where
  display_name : Option String
  name : Option String
  image_url : Option String
deriving DecidableEq, Repr

/-- The `{ ok: true, data: profileData }` object built inside the
cached profile fetcher (line 41). -/
structure ProfileResponse where
  ok : Bool
  data : ProfileData
deriving DecidableEq, Repr

/-- JavaScript `a || b` on an optional string against a default. -/
def jsOr (a : Option String) (b : String) : String :=
  match a with
  | some s => if s = "" then b else s
  | none => b

/-- The emoji-range test of the strip regex on line 177: a surrogate
pair (any code point above `0xFFFF`) or a BMP code point in one of the
four listed ranges. -/
def emojiRangeChar (c : Char) : Bool :=
  (65536 ≤ c.toNat) ||
  (0x2600 ≤ c.toNat && c.toNat ≤ 0x27FF) ||
  (0x2300 ≤ c.toNat && c.toNat ≤ 0x23FF) ||
  (0x2000 ≤ c.toNat && c.toNat ≤ 0x206F) ||
  (0x2100 ≤ c.toNat && c.toNat ≤ 0x214F)

/-- The emoji strip of lines 176–179. -/
def cleanDisplayName (s : String) : String :=
  String.mk (s.data.filter (fun c => !emojiRangeChar c))

/-- The UTF-16 code unit returned by `charCodeAt(0)` for a first
character `c`: the code point itself on the BMP, otherwise the high
surrogate. -/
def utf16CodeUnit (c : Char) : Nat :=
  if c.toNat < 65536 then c.toNat else 55296 + (c.toNat - 65536) / 1024

/-- Background selection of lines 181–184:
`talentUUID.charCodeAt(0) % 2`. On the empty string `charCodeAt`
returns `NaN`, `NaN % 2` is `NaN`, and `NaN === 0` is false, so the
second variant is chosen. -/
def backgroundImageOf (talentUUID : String) : String :=
  match talentUUID.data with
  | [] => "background-2.png"
  | c :: _ => if utf16CodeUnit c % 2 = 0 then "background.png" else "background-2.png"

/-- The outcomes of every awaited step of the GET handler, one request's
worth. `profileFetch` is the cached closure of lines 29–48, which
**throws** when the upstream profile response is not ok; `.error`
therefore covers both an unknown subject and any other profile-fetch
failure. The three `Promise.all` fetches carry their own `.catch`
defaults; `ethPriceFetch` and `fontFetch` do not. `renderOk` stands for
the image renderer, treated as an external function that either
succeeds or throws. -/
structure RouteEnv where
  isEarn : String → Bool
  profileFetch : Except String ProfileData
  socialFetch : Except String (List SocialAccount)
  credFetch : Except String (List CredentialGroup)
  scoreFetch : Except String ℚ
  ethPriceFetch : Except String ℚ
  fontFetch : Except String Unit
  renderOk : Bool

/-- What the rendered image displays (the layout tree's data inputs and
the fixed 1600×900 dimensions). -/
structure ShareImagePayload where
  cleanName : String
  totalFollowers : ℚ
  creatorScore : ℚ
  totalEarnings : ℚ
  backgroundImage : String
  width : Nat
  height : Nat
deriving DecidableEq, Repr

/-- A GET response: an image, or a JSON error body with its HTTP status. -/
inductive RouteResult
  | image (payload : ShareImagePayload)
  | jsonError (status : Nat) (msg : String)
deriving DecidableEq, Repr

/-- The GET handler of `route.tsx` lines 23–395. Any `.error` outcome
of an awaited step without its own `.catch` propagates to the
catch-all of lines 383–394, which returns the 500 JSON error. The 404
branch of lines 51–53 tests the `ok` field of the object built on
line 41. -/
def GET (env : RouteEnv) (talentUUID : String) : RouteResult :=
  match env.profileFetch.map (fun d => ProfileResponse.mk true d) with
  | .error _ => .jsonError 500 "Failed to generate image"
  | .ok profileResponse =>
    if !profileResponse.ok then .jsonError 404 "Profile not found"
    else
      let profileData := profileResponse.data
      let socialAccounts := env.socialFetch.toOption.getD []
      let credentials := env.credFetch.toOption.getD []
      let creatorScore := env.scoreFetch.toOption.getD 0
      let totalFollowers := calculateTotalFollowers socialAccounts
      match env.ethPriceFetch with
      | .error _ => .jsonError 500 "Failed to generate image"
      | .ok ethPrice =>
        let totalEarnings := totalEarningsOf env.isEarn ethPrice credentials
        let displayName := jsOr profileData.display_name (jsOr profileData.name "Creator")
        let cleanName := cleanDisplayName displayName
        let backgroundImage := backgroundImageOf talentUUID
        match env.fontFetch with
        | .error _ => .jsonError 500 "Failed to generate image"
        | .ok _ =>
          if env.renderOk then
            .image { cleanName := cleanName, totalFollowers := totalFollowers
                     creatorScore := creatorScore, totalEarnings := totalEarnings
                     backgroundImage := backgroundImage, width := 1600, height := 900 }
          else
            .jsonError 500 "Failed to generate image"

/-! ## Concrete inputs used by witnesses and counterexamples -/

/-- A controller state with a refresh in flight. -/
def busyRS : RefreshState := { idleRS with isRefreshing := true }

/-- A score environment in which every fetch rejects. -/
def envErrConst : String → Except String ScoreApiResponse :=
  fun _ => .error "network down"

/-- A response body carrying 10 points and no error. -/
def dOk10 : ScoreApiResponse :=
  { error := none,
    score := some { points := some 10, last_calculated_at := none,
                    calculating_score := none,
                    calculating_score_enqueued_at := none } }

/-- A score environment in which every address resolves to 10 points. -/
def envOk10 : String → Except String ScoreApiResponse :=
  fun _ => .ok dOk10

/-- A two-band level table. -/
def tableW : List LevelRange :=
  [{ min := 0, max := 39, name := "Level 1" }, { min := 40, max := 79, name := "Level 2" }]

/-- A profile body with every optional field absent. -/
def okProfile : ProfileData := { display_name := none, name := none, image_url := none }

/-- A route environment in which every step succeeds with empty data. -/
def okRouteEnv : RouteEnv :=
  { isEarn := fun _ => false, profileFetch := .ok okProfile, socialFetch := .ok []
    credFetch := .ok [], scoreFetch := .ok 0, ethPriceFetch := .ok 0
    fontFetch := .ok (), renderOk := true }

/-- A route environment whose profile fetch throws, as it does for an
unknown subject (`Profile not found: 404` is the message built on
line 37). -/
def notFoundRouteEnv : RouteEnv :=
  { okRouteEnv with profileFetch := .error "Profile not found: 404" }

/-- The payload `GET okRouteEnv "u"` renders. -/
def okPayloadU : ShareImagePayload :=
  { cleanName := "Creator", totalFollowers := 0, creatorScore := 0
    totalEarnings := 0, backgroundImage := "background-2.png"
    width := 1600, height := 900 }

/-- An earnings predicate accepting every slug. -/
def allEarn : String → Bool := fun _ => true

/-- A USDC point worth 5. -/
def pointU5 : CredentialPoint := { slug := some "s", readable_value := some "5", uom := some "USDC" }

/-- A USDC point worth 3. -/
def pointU3 : CredentialPoint := { slug := some "s", readable_value := some "3", uom := some "USDC" }

/-- A first group of issuer `A`. -/
def groupA5 : CredentialGroup := { issuer := "A", points := [pointU5] }

/-- A second group of the same issuer `A`. -/
def groupA3 : CredentialGroup := { issuer := "A", points := [pointU3] }

/-! ## Claim C8 -/

/-- Claim C8: with the identifier absent or a refresh already in
flight, invoking `refreshScore` is a no-op — the state (including the
analytics, request and scheduled-callback counters) is returned
unchanged, so no recalculation request is issued. -/
theorem refresh_noop_when_busy_or_no_id (talentUUID : String)
    (hasAnalytics hasOnSuccess : Bool) (s : RefreshState) (outcome : TriggerOutcome)
    (h : talentUUID = "" ∨ s.isRefreshing = true) :
    refreshScore talentUUID hasAnalytics hasOnSuccess s outcome = s := by
  rcases h with h | h <;> simp [refreshScore, h]

/-- Witness for C8: a second invocation on a busy controller leaves the
state untouched. -/
theorem refresh_noop_when_busy_or_no_id_witness :
    refreshScore "user-1" false false busyRS .ok = busyRS :=
  refresh_noop_when_busy_or_no_id "user-1" false false busyRS .ok (Or.inr rfl)

/-! ## Claim C2 -/

/-- Claim C2 counterexample: after a successful refresh from idle the
in-flight flag is still set — the controller does **not** return to
idle on success, contradicting the claim's "on success it sets a
success message and ends in-flight". -/
theorem refresh_success_keeps_inflight_counterexample :
    (refreshScore "user-1" false false idleRS .ok).isRefreshing = true := by
  simp [refreshScore, idleRS]

/-- Claim C2 (amended): from idle with an identifier present, a refresh
sets the in-flight flag and issues one request; on success it sets the
success message but the in-flight flag **remains set**; on failure
(request-level or application-level) it sets an error message and
clears the in-flight flag immediately; no transition auto-clears the
error — the manual clear action resets the error message and nothing
else. -/
theorem refresh_controller_amended (talentUUID : String)
    (hasAnalytics hasOnSuccess : Bool) (s : RefreshState) (outcome : TriggerOutcome)
    (hid : talentUUID ≠ "") (hidle : s.isRefreshing = false) :
    (refreshScore talentUUID hasAnalytics hasOnSuccess s outcome).requestsIssued
        = s.requestsIssued + 1 ∧
    (outcome = .ok →
        (refreshScore talentUUID hasAnalytics hasOnSuccess s outcome).isRefreshing = true ∧
        (refreshScore talentUUID hasAnalytics hasOnSuccess s outcome).successMessage
            = some "Calculation enqueued" ∧
        (refreshScore talentUUID hasAnalytics hasOnSuccess s outcome).errorMsg = none) ∧
    (∀ e, outcome = .fail e →
        (refreshScore talentUUID hasAnalytics hasOnSuccess s outcome).isRefreshing = false ∧
        (refreshScore talentUUID hasAnalytics hasOnSuccess s outcome).errorMsg
            = some (fallbackMsg e) ∧
        (refreshScore talentUUID hasAnalytics hasOnSuccess s outcome).successMessage = none) ∧
    (∀ m, outcome = .thrown m →
        (refreshScore talentUUID hasAnalytics hasOnSuccess s outcome).isRefreshing = false ∧
        (refreshScore talentUUID hasAnalytics hasOnSuccess s outcome).errorMsg
            = some (fallbackMsg m) ∧
        (refreshScore talentUUID hasAnalytics hasOnSuccess s outcome).successMessage = none) ∧
    (clearErrorState (refreshScore talentUUID hasAnalytics hasOnSuccess s outcome)).errorMsg
        = none ∧
    (clearErrorState (refreshScore talentUUID hasAnalytics hasOnSuccess s outcome)).isRefreshing
        = (refreshScore talentUUID hasAnalytics hasOnSuccess s outcome).isRefreshing ∧
    (clearErrorState (refreshScore talentUUID hasAnalytics hasOnSuccess s outcome)).successMessage
        = (refreshScore talentUUID hasAnalytics hasOnSuccess s outcome).successMessage := by
  cases outcome <;> cases hasOnSuccess <;>
    simp [refreshScore, clearErrorState, hid, hidle]

/-- Witness for C2 (amended) at a concrete failed refresh. -/
theorem refresh_controller_amended_witness :
    (refreshScore "user-1" false false idleRS (.fail (some "boom"))).isRefreshing = false ∧
    (refreshScore "user-1" false false idleRS (.fail (some "boom"))).errorMsg
        = some (fallbackMsg (some "boom")) ∧
    (refreshScore "user-1" false false idleRS (.fail (some "boom"))).successMessage = none :=
  (refresh_controller_amended "user-1" false false idleRS (.fail (some "boom"))
      (by decide) rfl).2.2.1 (some "boom") rfl

/-! ## Claim C7 -/

/-- Claim C7: the single-address score fetch never raises — a rejected
fetch with message `m` yields the error record for `m` rather than
propagating — and every record it produces satisfies: `error` set
implies `score = 0` and `level = 1`. -/
theorem score_fetch_fails_soft :
    (∀ (table : List LevelRange) (env : String → Except String ScoreApiResponse)
        (addr m : String), env addr = Except.error m →
        getScoreForAddress table env addr = mkErrorRecord m) ∧
    (∀ (table : List LevelRange) (env : String → Except String ScoreApiResponse)
        (addr : String), ((getScoreForAddress table env addr).error).isSome →
        (getScoreForAddress table env addr).score = 0 ∧
        (getScoreForAddress table env addr).level = 1) := by
  constructor
  · intro table env addr m h
    simp [getScoreForAddress, h]
  · intro table env addr h
    cases he : env addr with
    | error m => simp [getScoreForAddress, he, mkErrorRecord]
    | ok d =>
      by_cases ht : truthyStr d.error
      · simp [getScoreForAddress, he, ht, mkErrorRecord]
      · simp [getScoreForAddress, he, ht] at h

/-- Witness for C7: a concrete always-rejecting environment produces
the error record, which has score 0 and level 1. -/
theorem score_fetch_fails_soft_witness :
    getScoreForAddress [] envErrConst "0xAbC" = mkErrorRecord "network down" :=
  score_fetch_fails_soft.1 [] envErrConst "0xAbC" "network down" rfl

/-! ## Claim C1 -/

/-- Helper: every JSON-error response of the handler carries status
500 — the 404 branch tests the `ok` field of an object built with
`ok: true`, so it is unreachable. -/
lemma GET_jsonError_is_500 (env : RouteEnv) (uuid : String) (st : Nat) (m : String)
    (h : GET env uuid = .jsonError st m) : st = 500 := by
  unfold GET at h
  cases hpf : env.profileFetch with
  | error e => rw [hpf] at h; simp_all [Except.map]
  | ok d =>
    rw [hpf] at h
    simp only [Except.map] at h
    cases hep : env.ethPriceFetch with
    | error e => simp_all
    | ok price =>
      rw [hep] at h
      cases hff : env.fontFetch with
      | error e => simp_all
      | ok u =>
        rw [hff] at h
        by_cases hr : env.renderOk <;> simp_all

/-- Claim C1: the claim says an unknown subject yields HTTP 404, but
the cached profile fetcher **throws** on a non-ok upstream response, so
the catch-all returns the 500 JSON error instead — and no execution of
the handler can return 404 at all. Every non-image response (profile
failure included) is the 500 JSON error. -/
theorem share_image_unknown_subject_500 :
    (∀ (env : RouteEnv) (uuid m : String), env.profileFetch = Except.error m →
        GET env uuid = .jsonError 500 "Failed to generate image") ∧
    (∀ (env : RouteEnv) (uuid : String) (st : Nat) (m : String),
        GET env uuid = .jsonError st m → st = 500) := by
  constructor
  · intro env uuid m h
    unfold GET
    rw [h]
    rfl
  · exact fun env uuid st m h => GET_jsonError_is_500 env uuid st m h

/-- Witness for C1: the concrete unknown-subject environment gets the
500 JSON error, not a 404. -/
theorem share_image_unknown_subject_500_witness :
    GET notFoundRouteEnv "some-uuid" = .jsonError 500 "Failed to generate image" :=
  share_image_unknown_subject_500.1 notFoundRouteEnv "some-uuid"
    "Profile not found: 404" rfl

/-! ## Claim C9 -/

/-- Helper: any image the handler produces shows the background picked
by `backgroundImageOf` from the subject identifier alone. -/
lemma GET_image_background (env : RouteEnv) (uuid : String) (p : ShareImagePayload)
    (h : GET env uuid = .image p) : p.backgroundImage = backgroundImageOf uuid := by
  unfold GET at h
  cases hpf : env.profileFetch with
  | error e => rw [hpf] at h; simp_all [Except.map]
  | ok d =>
    rw [hpf] at h
    simp only [Except.map] at h
    cases hep : env.ethPriceFetch with
    | error e => simp_all
    | ok price =>
      rw [hep] at h
      cases hff : env.fontFetch with
      | error e => simp_all
      | ok u =>
        rw [hff] at h
        by_cases hr : env.renderOk
        · simp only [hr, if_true, if_pos] at h
          simp at h
          rw [← h]
        · simp_all

/-- Claim C9: the background variant is a pure function of the subject
identifier — two renders with the same identifier, under arbitrary
(even different) fetch outcomes, show the same background; the variant
is always one of the two fixed files; and for a nonempty identifier it
is chosen by the first character's UTF-16 code modulo 2. -/
theorem background_variant_deterministic :
    (∀ (env env2 : RouteEnv) (uuid : String) (p p2 : ShareImagePayload),
        GET env uuid = .image p → GET env2 uuid = .image p2 →
        p.backgroundImage = p2.backgroundImage) ∧
    (∀ uuid : String, backgroundImageOf uuid = "background.png" ∨
        backgroundImageOf uuid = "background-2.png") ∧
    (∀ (uuid : String) (c : Char) (rest : List Char), uuid.data = c :: rest →
        backgroundImageOf uuid =
          (if utf16CodeUnit c % 2 = 0 then "background.png" else "background-2.png")) := by
  refine ⟨?_, ?_, ?_⟩
  · intro env env2 uuid p p2 h h2
    rw [GET_image_background env uuid p h, GET_image_background env2 uuid p2 h2]
  · intro uuid
    unfold backgroundImageOf
    cases uuid.data with
    | nil => exact Or.inr rfl
    | cons c rest =>
      by_cases hc : utf16CodeUnit c % 2 = 0
      · exact Or.inl (by simp [hc])
      · exact Or.inr (by simp [hc])
  · intro uuid c rest h
    unfold backgroundImageOf
    rw [h]

/-- Witness for C9: two renders of subject `"u"` under the same
environment agree on the background, which is the odd variant for the
code of `'u'`. -/
theorem background_variant_deterministic_witness :
    okPayloadU.backgroundImage = okPayloadU.backgroundImage ∧
    backgroundImageOf "u" =
      (if utf16CodeUnit 'u' % 2 = 0 then "background.png" else "background-2.png") :=
  ⟨background_variant_deterministic.1 okRouteEnv okRouteEnv "u" okPayloadU okPayloadU rfl rfl,
   background_variant_deterministic.2.2 "u" 'u' [] rfl⟩

/-! ## Claim C3 -/

/-- Helper: removing the first occurrence of `c` from `l ++ [c]` gives
back `l` when `c` does not occur in `l`. -/
lemma removeFirst_append_self (l : List Char) (c : Char) (h : c ∉ l) :
    removeFirst c (l ++ [c]) = l := by
  induction l with
  | nil => simp [removeFirst]
  | cons x xs ih =>
    simp only [List.mem_cons, not_or] at h
    simp [removeFirst, Ne.symm h.1, ih h.2]

/-- Claim C3 counterexample: on `"1KM"` the code's parser (contains-`K`
check first, first occurrence removed) yields 1000, while the claim's
trailing-suffix reading (`M` is the trailing suffix, so ×1,000,000 on
the numeric prefix) yields 1000000. -/
theorem earnings_parser_trailing_counterexample :
    parseReadableValue "1KM" = some 1000 ∧
    parseReadableValueSpec "1KM" = some 1000000 ∧
    parseReadableValue "1KM" ≠ parseReadableValueSpec "1KM" := by
  have h1 : parseReadableValue "1KM" = some 1000 := by
    simp +decide [parseReadableValue, parseFloatCore, removeFirst, keepChar, digitsToNat]
  have h2 : parseReadableValueSpec "1KM" = some 1000000 := by
    simp +decide [parseReadableValueSpec, parseFloatCore, keepChar, digitsToNat]
  refine ⟨h1, h2, ?_⟩
  rw [h1, h2]
  simp

/-- Claim C3 (amended): the parser depends only on the characters kept
by the strip (digits, `.`, `K`, `M`, `-`); when the stripped string
contains a `K` — in particular a single trailing `K` — the first `K` is
removed and the numeric prefix of the remainder is multiplied by 1,000;
when it contains no `K` but an `M`, the first `M` is removed and the
numeric prefix multiplied by 1,000,000; a non-number yields `none`,
which contributes zero without throwing; and `"1.5K"` ↦ 1500,
`"2M"` ↦ 2,000,000, `"abc"` ↦ 0. -/
theorem earnings_parser_amended :
    (∀ s t : String, s.data.filter keepChar = t.data.filter keepChar →
        parseReadableValue s = parseReadableValue t) ∧
    (∀ l : List Char, (∀ c ∈ l, keepChar c = true) → 'K' ∉ l →
        parseReadableValue (String.mk (l ++ ['K'])) = (parseFloatCore l).map (· * 1000)) ∧
    (∀ l : List Char, (∀ c ∈ l, keepChar c = true) → 'K' ∉ l → 'M' ∉ l →
        parseReadableValue (String.mk (l ++ ['M'])) = (parseFloatCore l).map (· * 1000000)) ∧
    parseReadableValue "1.5K" = some 1500 ∧
    parseReadableValue "2M" = some 2000000 ∧
    parseReadableValue "abc" = none ∧
    pointUsd allEarn 1 { slug := some "x", readable_value := some "abc", uom := some "USDC" } = 0 := by
  refine ⟨?_, ?_, ?_, ?_, ?_, ?_, ?_⟩
  · intro s t h
    unfold parseReadableValue
    rw [h]
  · intro l hkeep hK
    have hfilt : (l ++ ['K']).filter keepChar = l ++ ['K'] := by
      refine List.filter_eq_self.mpr ?_
      intro c hc
      rcases List.mem_append.mp hc with hc | hc
      · exact hkeep c hc
      · simp at hc; subst hc; rfl
    have hcont : (l ++ ['K']).contains 'K' = true := by simp
    unfold parseReadableValue
    simp only [show (String.mk (l ++ ['K'])).data = l ++ ['K'] from rfl, hfilt, hcont]
    simp [removeFirst_append_self l 'K' hK]
  · intro l hkeep hK hM
    have hfilt : (l ++ ['M']).filter keepChar = l ++ ['M'] := by
      refine List.filter_eq_self.mpr ?_
      intro c hc
      rcases List.mem_append.mp hc with hc | hc
      · exact hkeep c hc
      · simp at hc; subst hc; rfl
    have hcontK : (l ++ ['M']).contains 'K' = false := by simp [hK]
    have hcontM : (l ++ ['M']).contains 'M' = true := by simp
    unfold parseReadableValue
    simp only [show (String.mk (l ++ ['M'])).data = l ++ ['M'] from rfl, hfilt, hcontK, hcontM]
    simp [removeFirst_append_self l 'M' hM]
  · simp +decide [parseReadableValue, parseFloatCore, removeFirst, keepChar, digitsToNat]
    try norm_num
  · simp +decide [parseReadableValue, parseFloatCore, removeFirst, keepChar, digitsToNat]
    try norm_num
  · rfl
  · rfl

/-- Witness for C3 (amended) at the singleton prefix `"1"` with a
trailing `K`. -/
theorem earnings_parser_amended_witness :
    parseReadableValue (String.mk (['1'] ++ ['K'])) = (parseFloatCore ['1']).map (· * 1000) :=
  earnings_parser_amended.2.1 ['1'] (by decide) (by decide)

/-! ## Claim C4 -/

/-- Helper: an entry of the map after a `set` is the written pair or an
old entry. -/
lemma mem_setAssoc (kv : String × ℚ) (k : String) (v : ℚ) (m : List (String × ℚ)) :
    kv ∈ setAssoc k v m → kv = (k, v) ∨ kv ∈ m := by
  induction m with
  | nil =>
    intro h
    simp only [setAssoc, List.mem_singleton] at h
    exact Or.inl h
  | cons p rest ih =>
    obtain ⟨k2, v2⟩ := p
    intro h
    simp only [setAssoc] at h
    by_cases hk : k2 = k
    · rw [if_pos hk] at h
      rcases List.mem_cons.mp h with h | h
      · exact Or.inl (by rw [h, hk])
      · exact Or.inr (List.mem_cons_of_mem _ h)
    · rw [if_neg hk] at h
      rcases List.mem_cons.mp h with h | h
      · exact Or.inr (h ▸ List.mem_cons_self _ _)
      · rcases ih h with h2 | h2
        · exact Or.inl h2
        · exact Or.inr (List.mem_cons_of_mem _ h2)

/-- Helper: a key of the map after a `set` is the written key or an old
key. -/
lemma key_mem_setAssoc (a k : String) (v : ℚ) (m : List (String × ℚ))
    (h : a ∈ (setAssoc k v m).map Prod.fst) : a = k ∨ a ∈ m.map Prod.fst := by
  rcases List.mem_map.mp h with ⟨kv, hkv, hfst⟩
  rcases mem_setAssoc kv k v m hkv with h2 | h2
  · exact Or.inl (hfst ▸ h2 ▸ rfl)
  · exact Or.inr (hfst ▸ List.mem_map_of_mem Prod.fst h2)

/-- Helper: `set` keeps the keys without duplicates. -/
lemma nodup_keys_setAssoc (k : String) (v : ℚ) (m : List (String × ℚ)) :
    (m.map Prod.fst).Nodup → ((setAssoc k v m).map Prod.fst).Nodup := by
  induction m with
  | nil => intro h; simp [setAssoc]
  | cons p rest ih =>
    obtain ⟨k2, v2⟩ := p
    intro h
    simp only [List.map_cons, List.nodup_cons] at h
    unfold setAssoc
    by_cases hk : k2 = k
    · rw [if_pos hk]
      simp only [List.map_cons, List.nodup_cons]
      exact h
    · rw [if_neg hk]
      simp only [List.map_cons, List.nodup_cons]
      refine ⟨fun hmem => ?_, ih h.2⟩
      rcases key_mem_setAssoc k2 k v rest hmem with h2 | h2
      · exact hk h2
      · exact h.1 h2

/-- Helper: `set` with a positive value keeps all values positive. -/
lemma values_pos_setAssoc (k : String) (v : ℚ) (m : List (String × ℚ))
    (hv : 0 < v) (h : ∀ kv ∈ m, 0 < kv.2) : ∀ kv ∈ setAssoc k v m, 0 < kv.2 :=
  fun kv hkv => (mem_setAssoc kv k v m hkv).elim (fun he => he ▸ hv) (h kv)

/-- Helper: processing one group preserves positive values and
duplicate-free keys. -/
lemma processGroup_invariant (isEarn : String → Bool) (ethPrice : ℚ)
    (m : List (String × ℚ)) (g : CredentialGroup)
    (h1 : ∀ kv ∈ m, 0 < kv.2) (h2 : (m.map Prod.fst).Nodup) :
    (∀ kv ∈ processGroup isEarn ethPrice m g, 0 < kv.2) ∧
    ((processGroup isEarn ethPrice m g).map Prod.fst).Nodup := by
  unfold processGroup
  split_ifs with hskip hpos
  · exact ⟨h1, h2⟩
  · exact ⟨values_pos_setAssoc _ _ _ hpos h1, nodup_keys_setAssoc _ _ _ h2⟩
  · exact ⟨h1, h2⟩

/-- Helper: the whole fold preserves positive values and duplicate-free
keys. -/
lemma issuerTotals_invariant (isEarn : String → Bool) (ethPrice : ℚ)
    (groups : List CredentialGroup) :
    ∀ m : List (String × ℚ), (∀ kv ∈ m, 0 < kv.2) → (m.map Prod.fst).Nodup →
    (∀ kv ∈ groups.foldl (processGroup isEarn ethPrice) m, 0 < kv.2) ∧
    ((groups.foldl (processGroup isEarn ethPrice) m).map Prod.fst).Nodup := by
  induction groups with
  | nil => exact fun m h1 h2 => ⟨h1, h2⟩
  | cons g gs ih =>
    intro m h1 h2
    simp only [List.foldl_cons]
    obtain ⟨h1g, h2g⟩ := processGroup_invariant isEarn ethPrice m g h1 h2
    exact ih _ h1g h2g

/-- Claim C4 counterexample: two groups sharing issuer `A`, worth 5 and
3 USDC. The claim's per-issuer summation yields 8; the code's
`Map.set` overwrites the earlier group's entry, so `totalEarnings` is
3. -/
theorem issuer_totals_overwrite_counterexample :
    totalEarningsOf allEarn 1 [groupA5, groupA3] = 3 ∧
    totalEarningsPerIssuerSpec allEarn 1 [groupA5, groupA3] = 8 ∧
    totalEarningsOf allEarn 1 [groupA5, groupA3] ≠
      totalEarningsPerIssuerSpec allEarn 1 [groupA5, groupA3] := by
  have h1 : totalEarningsOf allEarn 1 [groupA5, groupA3] = 3 := by
    simp +decide [totalEarningsOf, issuerTotalsOf, processGroup, groupTotal, pointUsd,
      setAssoc, allEarn, groupA5, groupA3, pointU5, pointU3, parseReadableValue,
      parseFloatCore, keepChar, digitsToNat, truthyStr, convertEthToUsdc, removeFirst]
  have hc : issuerContributionSpec allEarn 1 [groupA5, groupA3] "A" = 8 := by
    simp +decide [issuerContributionSpec, groupTotal, pointUsd, allEarn, groupA5,
      groupA3, pointU5, pointU3, parseReadableValue, parseFloatCore, keepChar,
      digitsToNat, truthyStr, removeFirst]
    norm_num
  have h2 : totalEarningsPerIssuerSpec allEarn 1 [groupA5, groupA3] = 8 := by
    have hpos8 : (0 : ℚ) < 8 := by norm_num
    have hdedup : ([groupA5, groupA3].map CredentialGroup.issuer).dedup = ["A"] := by
      simp +decide [groupA5, groupA3, List.dedup]
    unfold totalEarningsPerIssuerSpec
    rw [hdedup]
    simp [List.filter_cons, hc, hpos8]
  refine ⟨h1, h2, ?_⟩
  rw [h1, h2]
  norm_num

/-- Claim C4 (amended): per-point contributions are as claimed (parsed
value × rate for `ETH`, unchanged for `USDC`, zero for any other or
missing unit); contributions are summed per **group**; a group with
positive total `set`s its issuer's entry, overwriting any earlier group
with the same issuer, while a group with non-positive total writes
nothing; the mapping keys stay unique and its values positive; a group
with no earnings-tagged point leaves the mapping untouched; and
`totalEarnings`, the sum of the mapping's values, is ≥ 0. -/
theorem issuer_totals_amended (isEarn : String → Bool) (ethPrice : ℚ)
    (groups : List CredentialGroup) :
    0 ≤ totalEarningsOf isEarn ethPrice groups ∧
    (∀ kv ∈ issuerTotalsOf isEarn ethPrice groups, 0 < kv.2) ∧
    ((issuerTotalsOf isEarn ethPrice groups).map Prod.fst).Nodup ∧
    (∀ (m : List (String × ℚ)) (g : CredentialGroup),
        (¬ g.points.any (fun p => isEarn (p.slug.getD ""))) →
        processGroup isEarn ethPrice m g = m) ∧
    (∀ (m : List (String × ℚ)) (g : CredentialGroup),
        g.points.any (fun p => isEarn (p.slug.getD "")) →
        0 < groupTotal isEarn ethPrice g →
        processGroup isEarn ethPrice m g = setAssoc g.issuer (groupTotal isEarn ethPrice g) m) ∧
    (∀ (p : CredentialPoint) (v : ℚ), isEarn (p.slug.getD "") = true →
        truthyStr p.readable_value = true → p.uom = some "ETH" →
        parseReadableValue (p.readable_value.getD "") = some v →
        pointUsd isEarn ethPrice p = v * ethPrice) ∧
    (∀ (p : CredentialPoint) (v : ℚ), isEarn (p.slug.getD "") = true →
        truthyStr p.readable_value = true → p.uom = some "USDC" →
        parseReadableValue (p.readable_value.getD "") = some v →
        pointUsd isEarn ethPrice p = v) ∧
    (∀ p : CredentialPoint, p.uom ≠ some "ETH" → p.uom ≠ some "USDC" →
        pointUsd isEarn ethPrice p = 0) := by
  have hinv : (∀ kv ∈ issuerTotalsOf isEarn ethPrice groups, 0 < kv.2) ∧
      ((issuerTotalsOf isEarn ethPrice groups).map Prod.fst).Nodup :=
    issuerTotals_invariant isEarn ethPrice groups []
      (by intro kv h; simp at h) (by simp)
  refine ⟨?_, hinv.1, hinv.2, ?_, ?_, ?_, ?_, ?_⟩
  · apply List.sum_nonneg
    intro x hx
    rcases List.mem_map.mp hx with ⟨kv, hkv, hsnd⟩
    exact hsnd ▸ le_of_lt (hinv.1 kv hkv)
  · intro m g h
    simp [processGroup, h]
  · intro m g h hpos
    simp [processGroup, h, hpos]
  · intro p v hE hrv huom hparse
    simp +decide [pointUsd, hE, hrv, huom, hparse, convertEthToUsdc]
  · intro p v hE hrv huom hparse
    simp +decide [pointUsd, hE, hrv, huom, hparse]
  · intro p hE hU
    unfold pointUsd
    split_ifs with h1 h2
    · rfl
    · rfl
    · cases hp : parseReadableValue (p.readable_value.getD "")
      · rfl
      · simp [hE, hU]

/-- Witness for C4 (amended): the concrete two-group aggregation has
positive unique-keyed totals, a skipped no-earnings group, and the
USDC pass-through. -/
theorem issuer_totals_amended_witness :
    0 ≤ totalEarningsOf allEarn 1 [groupA5, groupA3] ∧
    processGroup allEarn 1 [] { issuer := "B", points := [] } = [] ∧
    pointUsd allEarn 1 pointU3 = 3 :=
  ⟨(issuer_totals_amended allEarn 1 [groupA5, groupA3]).1,
   (issuer_totals_amended allEarn 1 []).2.2.2.1 [] { issuer := "B", points := [] } (by decide),
   (issuer_totals_amended allEarn 1 []).2.2.2.2.2.2.1 pointU3 3 rfl rfl rfl
     (by simp +decide [parseReadableValue, parseFloatCore, keepChar, digitsToNat,
           removeFirst, pointU3])⟩

/-! ## Claim C5 -/

/-- Helper: the `reduce` of `pickHigher` over `acc :: t` returns the
first element attaining the maximum score: the input splits as
`l₁ ++ result :: l₂` with everything before the result strictly
smaller and everything after no larger. -/
lemma foldl_pickHigher_spec (t : List ScoreRecord) :
    ∀ acc : ScoreRecord, ∃ l₁ l₂ : List ScoreRecord,
      acc :: t = l₁ ++ (t.foldl pickHigher acc) :: l₂ ∧
      (∀ s ∈ l₁, s.score < (t.foldl pickHigher acc).score) ∧
      (∀ s ∈ l₂, s.score ≤ (t.foldl pickHigher acc).score) := by
  induction t with
  | nil =>
    intro acc
    exact ⟨[], [], rfl, by simp, by simp⟩
  | cons c t ih =>
    intro acc
    simp only [List.foldl_cons]
    by_cases h : acc.score < c.score
    · rw [show pickHigher acc c = c from if_pos h]
      obtain ⟨l₁, l₂, hdec, hlt, hle⟩ := ih c
      have hcr : c.score ≤ (t.foldl pickHigher c).score := by
        cases l₁ with
        | nil =>
          simp only [List.nil_append] at hdec
          injection hdec with h1 h2
          exact le_of_eq (congrArg ScoreRecord.score h1)
        | cons x l₁x =>
          simp only [List.cons_append] at hdec
          injection hdec with h1 h2
          have hx := hlt x (List.mem_cons_self x l₁x)
          rw [← h1] at hx
          exact le_of_lt hx
      refine ⟨acc :: l₁, l₂, ?_, ?_, hle⟩
      · rw [List.cons_append, ← hdec]
      · intro s hs
        rcases List.mem_cons.mp hs with hs | hs
        · exact hs ▸ lt_of_lt_of_le h hcr
        · exact hlt s hs
    · rw [show pickHigher acc c = acc from if_neg h]
      obtain ⟨l₁, l₂, hdec, hlt, hle⟩ := ih acc
      cases l₁ with
      | nil =>
        simp only [List.nil_append] at hdec
        injection hdec with h1 h2
        refine ⟨[], c :: l₂, ?_, by simp, ?_⟩
        · rw [List.nil_append, ← h1, h2]
        · intro s hs
          rcases List.mem_cons.mp hs with hs | hs
          · rw [hs, ← h1]
            exact le_of_not_lt h
          · exact hle s hs
      | cons x l₁x =>
        simp only [List.cons_append] at hdec
        injection hdec with h1 h2
        have hacc : acc.score < (t.foldl pickHigher acc).score := by
          have hx := hlt x (List.mem_cons_self x l₁x)
          rw [← h1] at hx
          exact hx
        refine ⟨acc :: c :: l₁x, l₂, ?_, ?_, hle⟩
        · exact congrArg (fun l => acc :: c :: l) h2
        · intro s hs
          rcases List.mem_cons.mp hs with hs | hs
          · exact hs ▸ hacc
          · rcases List.mem_cons.mp hs with hs2 | hs2
            · exact hs2 ▸ lt_of_le_of_lt (le_of_not_lt h) hacc
            · exact hlt s (List.mem_cons_of_mem x hs2)

/-- Helper: the `reduce` result is one of the candidates. -/
lemma foldl_pickHigher_mem (t : List ScoreRecord) (acc : ScoreRecord) :
    t.foldl pickHigher acc ∈ acc :: t := by
  obtain ⟨l₁, l₂, hdec, h1, h2⟩ := foldl_pickHigher_spec t acc
  rw [hdec]
  exact List.mem_append.mpr (Or.inr (List.mem_cons_self _ _))

/-- Helper: under a well-formed environment, a produced record's
`error` is truthy exactly when it is non-null. -/
lemma truthy_error_eq_isSome (table : List LevelRange)
    (env : String → Except String ScoreApiResponse) (hwf : WellFormedEnv env)
    (a : String) :
    truthyStr (getScoreForAddress table env a).error
      = ((getScoreForAddress table env a).error).isSome := by
  cases he : env a with
  | error m =>
    have hm := (hwf a).1 m he
    simp [getScoreForAddress, he, mkErrorRecord, truthyStr, hm]
  | ok d =>
    cases hde : d.error with
    | none => simp [getScoreForAddress, he, hde, truthyStr]
    | some e =>
      have hee := (hwf a).2 d e he hde
      by_cases ht : truthyStr d.error
      · simp [getScoreForAddress, he, ht, hde, mkErrorRecord, truthyStr, hee]
      · rw [hde] at ht
        exact absurd (by simpa [truthyStr] using hee) ht

/-- Helper: the code's truthiness filter agrees with the
is-the-error-null filter under a well-formed environment. -/
lemma validScores_filter_eq (table : List LevelRange)
    (env : String → Except String ScoreApiResponse) (addrs : List String)
    (hwf : WellFormedEnv env) :
    ((addrs.map fun a => getScoreForAddress table env a.toLower).filter
        fun s => !truthyStr s.error)
      = ((addrs.map fun a => getScoreForAddress table env a.toLower).filter
          fun r => r.error.isNone) := by
  apply List.filter_congr
  intro r hr
  rcases List.mem_map.mp hr with ⟨a, ha, hra⟩
  rw [← hra, truthy_error_eq_isSome table env hwf a.toLower]
  cases (getScoreForAddress table env a.toLower).error <;> rfl

/-- Claim C5: the best-of-N lookup returns the "no wallet addresses"
error record on empty input; when every fetched record has `error` set
it returns the "no valid scores" error record (both carry score 0, by
definition of `mkErrorRecord`); and otherwise it returns the
first-encountered record of maximum score among those with `error`
unset. The environment is assumed well-formed (failure messages
nonempty), matching the spec's `error: string|null` model. -/
theorem best_score_selection (table : List LevelRange)
    (env : String → Except String ScoreApiResponse) (addrs : List String)
    (hwf : WellFormedEnv env) :
    (addrs = [] → getHighestScore table env addrs
        = mkErrorRecord "No wallet addresses provided") ∧
    (addrs ≠ [] →
      ((addrs.map fun a => getScoreForAddress table env a.toLower).filter
          fun r => r.error.isNone) = [] →
      getHighestScore table env addrs = mkErrorRecord "No valid scores found") ∧
    (∀ v vs, ((addrs.map fun a => getScoreForAddress table env a.toLower).filter
          fun r => r.error.isNone) = v :: vs →
      addrs ≠ [] →
      ∃ l₁ l₂,
        v :: vs = l₁ ++ getHighestScore table env addrs :: l₂ ∧
        (∀ s ∈ l₁, s.score < (getHighestScore table env addrs).score) ∧
        (∀ s ∈ l₂, s.score ≤ (getHighestScore table env addrs).score)) := by
  refine ⟨?_, ?_, ?_⟩
  · intro h
    subst h
    rfl
  · intro hne hfil
    have hef : addrs.isEmpty = false := by
      cases addrs with
      | nil => exact absurd rfl hne
      | cons a as => rfl
    unfold getHighestScore
    rw [hef]
    simp only [Bool.false_eq_true, if_false]
    rw [validScores_filter_eq table env addrs hwf, hfil]
  · intro v vs hfil hne
    have hef : addrs.isEmpty = false := by
      cases addrs with
      | nil => exact absurd rfl hne
      | cons a as => rfl
    unfold getHighestScore
    rw [hef]
    simp only [Bool.false_eq_true, if_false]
    rw [validScores_filter_eq table env addrs hwf, hfil]
    exact foldl_pickHigher_spec vs v

/-- Witness for C5: the empty address list yields the error record. -/
theorem best_score_selection_witness :
    getHighestScore tableW envOk10 [] = mkErrorRecord "No wallet addresses provided" :=
  (best_score_selection tableW envOk10 []
    (by
      intro a
      refine ⟨fun m h => ?_, fun d e h he => ?_⟩
      · simp [envOk10] at h
      · simp [envOk10] at h
        rw [← h] at he
        simp [dOk10] at he)).1 rfl

/-! ## Claim C6 -/

/-- Helper: joint characterization of `find?` and `findIdx?` over the
level table — either the table splits at the first matching range, or
nothing matches. -/
lemma find_first_decomp (tbl : List LevelRange) (p : ℚ) :
    (∃ t₁ r t₂, tbl = t₁ ++ r :: t₂ ∧ (∀ q ∈ t₁, inLevelRange p q = false) ∧
        inLevelRange p r = true ∧ tbl.find? (inLevelRange p) = some r ∧
        tbl.findIdx? (inLevelRange p) = some t₁.length) ∨
    ((∀ r ∈ tbl, inLevelRange p r = false) ∧ tbl.find? (inLevelRange p) = none ∧
        tbl.findIdx? (inLevelRange p) = none) := by
  induction tbl with
  | nil => exact Or.inr ⟨by simp, rfl, rfl⟩
  | cons a t ih =>
    by_cases ha : inLevelRange p a
    · left
      exact ⟨[], a, t, rfl, by simp, ha,
        by rw [List.find?_cons_of_pos _ ha],
        by rw [List.findIdx?_cons, if_pos ha]; rfl⟩
    · have ha2 : inLevelRange p a = false := by simpa using ha
      rcases ih with ⟨t₁, r, t₂, hdec, hnone, hr, hfind, hidx⟩ | ⟨hall, hfind, hidx⟩
      · left
        refine ⟨a :: t₁, r, t₂, by rw [List.cons_append, hdec], ?_, hr, ?_, ?_⟩
        · intro q hq
          rcases List.mem_cons.mp hq with hq | hq
          · rw [hq]; exact ha2
          · exact hnone q hq
        · rw [List.find?_cons_of_neg _ ha, hfind]
        · rw [List.findIdx?_cons, if_neg ha]
          simp [List.findIdx?_succ, hidx]
      · right
        refine ⟨?_, ?_, ?_⟩
        · intro r hrm
          rcases List.mem_cons.mp hrm with hrm | hrm
          · rw [hrm]; exact ha2
          · exact hall r hrm
        · rw [List.find?_cons_of_neg _ ha, hfind]
        · rw [List.findIdx?_cons, if_neg ha]
          simp [List.findIdx?_succ, hidx]

/-- Claim C6: the assigned range is the first table entry whose
inclusive `[min, max]` interval contains the points (everything before
it fails the test), falling back to the first entry when nothing
matches, and the level number is the 1-based position of that entry;
this is exactly the level and level name that `getScoreForAddress`
stores for a successful payload. -/
theorem level_assignment_first_match (table : List LevelRange) (p : ℚ)
    (_htable : table ≠ []) :
    ((∃ t₁ r t₂, table = t₁ ++ r :: t₂ ∧ (∀ q ∈ t₁, inLevelRange p q = false) ∧
        inLevelRange p r = true ∧ levelInfoOf table p = r ∧
        levelOf table p = t₁.length + 1) ∨
      ((∀ r ∈ table, inLevelRange p r = false) ∧
        (∀ r₀ t', table = r₀ :: t' → levelInfoOf table p = r₀) ∧
        levelOf table p = 1)) ∧
    (∀ (env : String → Except String ScoreApiResponse) (addr : String)
        (d : ScoreApiResponse), env addr = Except.ok d → truthyStr d.error = false →
        (d.score.bind ScoreObj.points).getD 0 = p →
        (getScoreForAddress table env addr).level = levelOf table p ∧
        (getScoreForAddress table env addr).levelName = (levelInfoOf table p).name) := by
  constructor
  · rcases find_first_decomp table p with
      ⟨t₁, r, t₂, hdec, hnone, hr, hfind, hidx⟩ | ⟨hall, hfind, hidx⟩
    · left
      exact ⟨t₁, r, t₂, hdec, hnone, hr,
        by simp [levelInfoOf, hfind],
        by simp [levelOf, levelIndexOf, hidx]⟩
    · right
      refine ⟨hall, ?_, by simp [levelOf, levelIndexOf, hidx]⟩
      intro r₀ t' he
      rw [levelInfoOf, hfind, he]
      rfl
  · intro env addr d he ht hp
    simp [getScoreForAddress, he, ht, hp]

/-- Witness for C6: for a 50-point payload against the two-band table,
`getScoreForAddress` stores the level and level name derived by the
first-match scan. -/
theorem level_assignment_first_match_witness :
    (getScoreForAddress tableW envOk10 "0xA").level = levelOf tableW 10 ∧
    (getScoreForAddress tableW envOk10 "0xA").levelName = (levelInfoOf tableW 10).name :=
  (level_assignment_first_match tableW 10 (by decide)).2 envOk10 "0xA" dOk10 rfl rfl rfl

/-! ## Claim C10 -/

/-- Helper: a record with `error` unset came out of the success branch,
whose `walletAddress` is the address the fetch was issued for. -/
lemma getScore_wallet_of_error_none (table : List LevelRange)
    (env : String → Except String ScoreApiResponse) (x : String)
    (h : (getScoreForAddress table env x).error = none) :
    (getScoreForAddress table env x).walletAddress = some x := by
  cases he : env x with
  | error m => simp [getScoreForAddress, he, mkErrorRecord] at h
  | ok d =>
    by_cases ht : truthyStr d.error
    · simp [getScoreForAddress, he, ht, mkErrorRecord] at h
    · simp [getScoreForAddress, he, ht]

/-- Claim C10: whenever the best-of-N lookup returns a record with
`error` unset, its `walletAddress` is the lowercased form of one of
the input addresses — every fetch is issued on the lowercased
address. -/
theorem best_score_addresses_lowercased (table : List LevelRange)
    (env : String → Except String ScoreApiResponse) (addrs : List String)
    (h : (getHighestScore table env addrs).error = none) :
    ∃ a ∈ addrs, (getHighestScore table env addrs).walletAddress = some a.toLower := by
  by_cases hef : addrs.isEmpty
  · exfalso
    unfold getHighestScore at h
    rw [if_pos hef] at h
    simp [mkErrorRecord] at h
  · have hef2 : addrs.isEmpty = false := by simpa using hef
    unfold getHighestScore at h ⊢
    rw [hef2] at h ⊢
    simp only [Bool.false_eq_true, if_false] at h ⊢
    cases hv : (addrs.map fun addr => getScoreForAddress table env addr.toLower).filter
        (fun s => !truthyStr s.error) with
    | nil =>
      rw [hv] at h
      simp [mkErrorRecord] at h
    | cons v vs =>
      rw [hv] at h
      have h2 : (vs.foldl pickHigher v).error = none := h
      show ∃ a ∈ addrs, (vs.foldl pickHigher v).walletAddress = some a.toLower
      have hmem : vs.foldl pickHigher v ∈ v :: vs := foldl_pickHigher_mem vs v
      have hmemf : vs.foldl pickHigher v ∈
          List.filter (fun s => !truthyStr s.error)
            (addrs.map fun addr => getScoreForAddress table env addr.toLower) := by
        rw [hv]
        exact hmem
      have hmem2 := List.mem_of_mem_filter hmemf
      rcases List.mem_map.mp hmem2 with ⟨a, ha, hra⟩
      refine ⟨a, ha, ?_⟩
      rw [← hra] at h2 ⊢
      exact getScore_wallet_of_error_none table env a.toLower h2

/-- Witness for C10: a mixed-case input address comes back lowercased
in the winning record. -/
theorem best_score_addresses_lowercased_witness :
    ∃ a ∈ ["0xAbC"], (getHighestScore tableW envOk10 ["0xAbC"]).walletAddress
      = some a.toLower :=
  best_score_addresses_lowercased tableW envOk10 ["0xAbC"] (by decide)
